import Mathlib

/-!
Verification of the multi-account reaction-bot orchestrator
(`reactionbot.py`) against its natural-language specification.

The embedding models:
* `pathlib.Path` values as `PyPath` (an absolute flag plus a component list),
  with `joinpath`, `with_suffix`, `stem`, `suffix` and `name` following
  CPython `pathlib` semantics;
* the on-disk active/quarantine areas as a list of existing `PyPath`s,
  with `rename` failing on a missing source;
* the per-account orchestration loop of `main` as an event-trace function
  driven by per-account outcome oracles (start result, conversion result,
  failing join index), matching the control flow of the source line by line;
* the top-level `start` / `while True` driver as an event trace indexed by
  run number.
-/

namespace ReactionBot

/-! ## Path model (`pathlib.Path`) -/

/-- A `pathlib.Path`: whether it is absolute, plus its components.
`Path('.')` is the empty relative path. -/
structure PyPath where
  absolute : Bool
  parts : List String
deriving DecidableEq, Repr

/-- Index (from the front) of the last occurrence of a dot, accumulator form. -/
def rfindDotAux : List Char → Nat → Option Nat → Option Nat
  | [], _, acc => acc
  | c :: cs, i, acc => rfindDotAux cs (i + 1) (if c = '.' then some i else acc)

/-- `name.rfind('.')` restricted to success: index of the last dot. -/
def rfindDot (s : String) : Option Nat :=
  rfindDotAux s.toList 0 none

/-- `PurePath.suffix` on a file name: the part from the last dot on, empty
when the dot is leading, trailing or missing. -/
def pySuffixOfName (name : String) : String :=
  match rfindDot name with
  | none => ""
  | some i => if 0 < i ∧ i < name.length - 1 then name.drop i else ""

/-- `PurePath.stem` on a file name: the name with its suffix removed. -/
def pyStemOfName (name : String) : String :=
  match rfindDot name with
  | none => name
  | some i => if 0 < i ∧ i < name.length - 1 then name.take i else name

/-- `Path.name`: the final component (empty for `Path('.')`). -/
def pname (p : PyPath) : String :=
  (p.parts.getLast?).getD ""

/-- `Path.suffix`. -/
def psuffix (p : PyPath) : String :=
  pySuffixOfName (pname p)

/-- `Path.stem`. -/
def pstem (p : PyPath) : String :=
  pyStemOfName (pname p)

/-- `Path.with_suffix(suf)`: replace the final component's suffix. -/
def pwithSuffix (p : PyPath) (suf : String) : PyPath :=
  ⟨p.absolute, p.parts.dropLast ++ [pyStemOfName (pname p) ++ suf]⟩

/-- `Path.joinpath(other)` for a path argument: an absolute argument
replaces the left path, a relative one is appended. -/
def pjoin (p q : PyPath) : PyPath :=
  if q.absolute then q else ⟨p.absolute, p.parts ++ q.parts⟩

/-- `Path.joinpath(component)` for a single relative name. -/
def childPath (p : PyPath) (s : String) : PyPath :=
  ⟨p.absolute, p.parts ++ [s]⟩

/-! ## Module-level constants (lines 23-30 of the source), parameterised by
`BASE_DIR = Path(sys.argv[0]).parent`, which is relative or absolute
depending on how the interpreter was invoked. -/

def TRY_AGAIN_SLEEP : Nat := 20

def WORK_DIR (base : PyPath) : PyPath := childPath base "sessions"

def BANNED_SESSIONS_DIR (base : PyPath) : PyPath :=
  childPath (WORK_DIR base) "banned_sessions"

def UNNECESSARY_SESSIONS_DIR (base : PyPath) : PyPath :=
  childPath (WORK_DIR base) "unnecessary_sessions"

def CONFIG_FILE_SUFFIXES : List String := [".ini", ".json"]

/-! ## Filesystem model -/

/-- `src.rename(dst)`: `FileNotFoundError` when the source is absent,
otherwise the file now exists at `dst` and no longer at `src`. -/
def rename (fs : List PyPath) (src dst : PyPath) : Except String (List PyPath) :=
  if src ∈ fs then Except.ok (dst :: fs.erase src) else Except.error "FileNotFoundError"

/-- The config-suffix loop of `move_session_to_ban_dir` (lines 128-132):
`for suffix in CONFIG_FILE_SUFFIXES:` compute the sibling config path, but
`continue` whenever `session_path` (sic) no longer exists. -/
def banLoop (base sessionPath : PyPath) : List String → List PyPath → Except String (List PyPath)
  | [], fs => Except.ok fs
  | suf :: rest, fs =>
    let configFilePath := pwithSuffix sessionPath suf
    if sessionPath ∈ fs then
      match rename fs configFilePath (childPath (BANNED_SESSIONS_DIR base) (pname configFilePath)) with
      | Except.ok fs2 => banLoop base sessionPath rest fs2
      | Except.error e => Except.error e
    else banLoop base sessionPath rest fs

/-- `move_session_to_ban_dir` (lines 123-132): rename the session artifact
into the banned area when it exists, then run the config-suffix loop. -/
def move_session_to_ban_dir (base sessionPath : PyPath) (fs : List PyPath) :
    Except String (List PyPath) :=
  if sessionPath ∈ fs then
    match rename fs sessionPath (childPath (BANNED_SESSIONS_DIR base) (pname sessionPath)) with
    | Except.ok fs1 => banLoop base sessionPath CONFIG_FILE_SUFFIXES fs1
    | Except.error e => Except.error e
  else banLoop base sessionPath CONFIG_FILE_SUFFIXES fs

/-- Target of a move into the unnecessary-quarantine area. -/
def uTarget (base p : PyPath) : PyPath :=
  childPath (UNNECESSARY_SESSIONS_DIR base) (pname p)

/-- Modelled from the spec: `SessionConvertor.move_file_to_unnecessary` lives
in `convertor.py`, which is not part of this repository snapshot.  Section 6
of the spec gives the collaborator operation `moveToUnnecessary(path)` and
section 4.2 makes per-file quarantine moves best-effort renames into the
quarantine area (an absent file is a no-op, not an error). -/
def move_file_to_unnecessary (base p : PyPath) (fs : List PyPath) : List PyPath :=
  if p ∈ fs then uTarget base p :: fs.erase p else fs

/-- Whether the (spec-modelled) conversion attempt raises its storage error
(`sqlite3.OperationalError`); its interface (spec section 6) has no other
failure mode. -/
inductive ConvRes
  | ok
  | opErr
deriving DecidableEq, Repr

/-- The suffix loop of `try_convert` (lines 117-119). -/
def unnecLoop (base sessionPath : PyPath) : List String → List PyPath → List PyPath
  | [], fs => fs
  | suf :: rest, fs =>
    unnecLoop base sessionPath rest (move_file_to_unnecessary base (pwithSuffix sessionPath suf) fs)

/-- `try_convert` (lines 110-120), as a filesystem transformer: when
`convert()` raises `OperationalError`, move the session artifact and then
each sibling config artifact into the unnecessary-quarantine area;
when conversion succeeds, nothing moves. -/
def try_convert (base sessionPath : PyPath) (conv : ConvRes) (fs : List PyPath) : List PyPath :=
  match conv with
  | ConvRes.ok => fs
  | ConvRes.opErr =>
    unnecLoop base sessionPath CONFIG_FILE_SUFFIXES
      (move_file_to_unnecessary base sessionPath fs)

/-! ## Credential normalisation (`get_config`, lines 76-91) -/

/-- Python truthiness of `config.get(key)` for string-valued configs:
falsy exactly when the key is absent or its value is the empty string. -/
def truthy : Option String → Bool
  | none => false
  | some s => s != ""

/-- The inner alias loop of `get_config` (lines 86-90): probe the alias
names in declared order, `continue` past falsy values, take the first
truthy one and `break`. -/
def firstTruthy (config : String → Option String) : List String → Option String
  | [] => none
  | v :: vs => if truthy (config v) then config v else firstTruthy config vs

/-- Python `dict` assignment `d[k] = v`: replace in place when the key is
present, append otherwise. -/
def dictInsert : List (String × String) → String → String → List (String × String)
  | [], k, v => [(k, v)]
  | p :: ps, k, v => if p.1 = k then (k, v) :: ps else p :: dictInsert ps k v

/-- One iteration of the outer alias loop of `get_config`: assign the first
truthy alias value to the canonical key, or leave the record unchanged. -/
def normStep (config : String → Option String) (acc : List (String × String))
    (kv : String × List String) : List (String × String) :=
  match firstTruthy config kv.2 with
  | none => acc
  | some s => dictInsert acc kv.1 s

/-- The normalisation of `get_config` (lines 84-91): start from
`{'name': file_path.stem}` and fold the alias table
(`POSSIBLE_KEY_NAMES.items()`) over it. -/
def normalize_config (table : List (String × List String))
    (config : String → Option String) (stem : String) : List (String × String) :=
  table.foldl (normStep config) [("name", stem)]

/-- Python `dict` lookup on the association-list representation. -/
def lookupKey : List (String × String) → String → Option String
  | [], _ => none
  | p :: ps, k => if p.1 = k then some p.2 else lookupKey ps k

/-! ## Client construction (`create_apps`, lines 94-107) -/

/-- `session_file_path` as computed on line 103:
`WORK_DIR.joinpath(config_file_path.with_suffix('.session'))`. -/
def session_file_path (base configFilePath : PyPath) : PyPath :=
  pjoin (WORK_DIR base) (pwithSuffix configFilePath ".session")

/-- `create_apps` (lines 94-107): one loop iteration per config file; the
oracle `outcome` gives the config record when the `try` body succeeds and
`none` when it raises (the exception is logged and the file skipped). -/
def create_apps (base : PyPath) (outcome : PyPath → Option (List (String × String))) :
    List PyPath → List (List (String × String) × PyPath)
  | [] => []
  | p :: ps =>
    match outcome p with
    | some cfg => (cfg, session_file_path base p) :: create_apps base outcome ps
    | none => create_apps base outcome ps

/-! ## Per-account orchestration (`main`, lines 135-175)

The loop body of `main` is sequential: for each `(app, config, session path)`
triple it adds the message handler, attempts `app.start()` inside a `try`
whose three `except` arms each `continue`, and then — outside any `try` —
joins every channel.  The oracle in `AccountSpec` records how the external
client behaves for one account. -/

/-- Outcome of `app.start()` for one account: success, the persisted-state
corruption error (`sqlite3.OperationalError`), the ban error
(`UserDeactivatedBan`), or any other exception. -/
inductive StartOutcome
  | ok
  | opErr
  | banned
  | otherErr
deriving DecidableEq, Repr

/-- External behaviour of one account: its start outcome, the conversion
outcome (consulted only on `opErr`), and the channel index at which
`app.join_chat` raises (`none` when every join succeeds). -/
structure AccountSpec where
  startRes : StartOutcome
  convRes : ConvRes
  joinFailAt : Option Nat
deriving DecidableEq, Repr

/-- Default account used with `List.getD`. -/
def dAcc : AccountSpec := ⟨StartOutcome.ok, ConvRes.ok, none⟩

/-- Observable events of one fleet run, tagged with the account index
(position in the `apps` list). -/
inductive Ev
  | handlerAdded (i : Nat)
  | startAttempt (i : Nat)
  | started (i : Nat)
  | convertAttempt (i : Nat)
  | movedToUnnecessary (i : Nat)
  | movedToBanned (i : Nat)
  | logOther (i : Nat)
  | joined (i : Nat) (ch : Nat)
  | idled
  | stopped (i : Nat)
deriving DecidableEq, Repr

/-- The join loop (lines 169-170) for account `i` over `nchan` channels:
events emitted and whether an uncaught exception escaped. -/
def joinEvents (i nchan : Nat) (failAt : Option Nat) : List Ev × Bool :=
  match failAt with
  | none => ((List.range nchan).map (Ev.joined i), false)
  | some k =>
    if k < nchan then ((List.range k).map (Ev.joined i), true)
    else ((List.range nchan).map (Ev.joined i), false)

/-- One iteration of the account loop (lines 152-170): handler added, start
attempted; the three `except` arms convert, quarantine-to-banned or log and
`continue`; on success the join loop runs unprotected. -/
def runAccount (i : Nat) (a : AccountSpec) (nchan : Nat) : List Ev × Bool :=
  match a.startRes with
  | StartOutcome.ok =>
    let js := joinEvents i nchan a.joinFailAt
    ([Ev.handlerAdded i, Ev.startAttempt i, Ev.started i] ++ js.1, js.2)
  | StartOutcome.opErr =>
    ([Ev.handlerAdded i, Ev.startAttempt i, Ev.convertAttempt i] ++
      (match a.convRes with
       | ConvRes.ok => []
       | ConvRes.opErr => [Ev.movedToUnnecessary i]), false)
  | StartOutcome.banned =>
    ([Ev.handlerAdded i, Ev.startAttempt i, Ev.movedToBanned i], false)
  | StartOutcome.otherErr =>
    ([Ev.handlerAdded i, Ev.startAttempt i, Ev.logOther i], false)

/-- The account loop over `apps`, starting at index `i`; an uncaught
exception aborts the remaining iterations. -/
def appsLoop (i : Nat) (apps : List AccountSpec) (nchan : Nat) : List Ev × Bool :=
  match apps with
  | [] => ([], false)
  | a :: rest =>
    if (runAccount i a nchan).2 then ((runAccount i a nchan).1, true)
    else ((runAccount i a nchan).1 ++ (appsLoop (i + 1) rest nchan).1,
      (appsLoop (i + 1) rest nchan).2)

/-- `main` (lines 135-175) after client construction: raise `No apps!` on an
empty account list, otherwise run the account loop; when no exception
escaped it, `idle()` and then stop every client. -/
def mainRun (apps : List AccountSpec) (nchan : Nat) : List Ev × Except String Unit :=
  if apps.isEmpty then ([], Except.error "No apps!")
  else if (appsLoop 0 apps nchan).2 then
    ((appsLoop 0 apps nchan).1, Except.error "uncaught error in account loop")
  else ((appsLoop 0 apps nchan).1 ++ [Ev.idled] ++
    (List.range apps.length).map Ev.stopped, Except.ok ())

/-! ## Reaction handler (`send_reaction`, lines 36-47) -/

/-- Failure modes of `client.send_reaction`: `ReactionInvalid`,
`UserDeactivatedBan`, or any other exception. -/
inductive SendErr
  | reactionInvalid
  | userDeactivatedBan
  | other
deriving DecidableEq, Repr

/-- Exceptions the handler itself can let escape. -/
inductive PyErr
  | indexError
  | sendErr (e : SendErr)
deriving DecidableEq, Repr

/-- What one invocation of the handler did: log lines written, number of
`send_reaction` calls issued, and the emoji pool after the call. -/
structure ReactionTrace where
  logs : List String
  sendAttempts : Nat
  emojisAfter : List String
deriving DecidableEq, Repr

/-- `send_reaction` (lines 36-47): `random.choice(EMOJIS)` (raising
`IndexError` on an empty pool, before the `try`), then one send attempt
whose three `except` arms log and swallow every failure. -/
def send_reaction (emojis : List String) (pick : Nat) (sendResult : Except SendErr Unit) :
    Except PyErr ReactionTrace :=
  if emojis = [] then Except.error PyErr.indexError
  else
    let emoji := emojis.getD (pick % emojis.length) ""
    match sendResult with
    | Except.ok _ => Except.ok ⟨[], 1, emojis⟩
    | Except.error SendErr.reactionInvalid =>
      Except.ok ⟨[emoji ++ " - INVALID REACTION"], 1, emojis⟩
    | Except.error SendErr.userDeactivatedBan => Except.ok ⟨["Session banned"], 1, emojis⟩
    | Except.error SendErr.other => Except.ok ⟨["traceback"], 1, emojis⟩

/-! ## Top-level driver (`start` and the `while True` loop, lines 178-192) -/

/-- Whether run number `k` of `main` returned normally or raised. -/
inductive RunResult
  | clean
  | fatal
deriving DecidableEq, Repr

/-- Driver events: invocation of run `k`, the critical log after a fatal
run, and a sleep of `secs` seconds after run `k`. -/
inductive DEv
  | runInvoked (k : Nat)
  | logCritical (k : Nat)
  | slept (k : Nat) (secs : Nat)
deriving DecidableEq, Repr

/-- One call of `start()` (lines 178-187) for run number `k`: run `main`;
on an escaping exception log critical and sleep `TRY_AGAIN_SLEEP`;
on a clean return do nothing further. -/
def startEvents (k : Nat) (r : RunResult) : List DEv :=
  match r with
  | RunResult.clean => [DEv.runInvoked k]
  | RunResult.fatal => [DEv.runInvoked k, DEv.logCritical k, DEv.slept k TRY_AGAIN_SLEEP]

/-- The `while True: start()` loop (lines 191-192): the event trace of the
first `n` iterations, with run `k` resolving to `res k`. -/
def driverTrace (res : Nat → RunResult) (n : Nat) : List DEv :=
  ((List.range n).map (fun k => startEvents k (res k))).flatten

/-! ## Driver-trace helper lemmas -/

theorem runInvoked_mem_startEvents (k : Nat) (r : RunResult) :
    DEv.runInvoked k ∈ startEvents k r := by
  cases r <;> simp [startEvents]

theorem runInvoked_mem_driverTrace (res : Nat → RunResult) (k n : Nat) (h : k < n) :
    DEv.runInvoked k ∈ driverTrace res n := by
  unfold driverTrace
  refine List.mem_flatten.mpr ⟨startEvents k (res k), ?_, runInvoked_mem_startEvents k (res k)⟩
  exact List.mem_map.mpr ⟨k, List.mem_range.mpr h, rfl⟩

theorem slept_mem_driverTrace_elim (res : Nat → RunResult) (N m secs : Nat)
    (h : DEv.slept m secs ∈ driverTrace res N) :
    secs = TRY_AGAIN_SLEEP ∧ res m = RunResult.fatal := by
  unfold driverTrace at h
  obtain ⟨l, hl, hmem⟩ := List.mem_flatten.mp h
  obtain ⟨k, _, rfl⟩ := List.mem_map.mp hl
  cases hr : res k with
  | clean => rw [hr] at hmem; simp [startEvents] at hmem
  | fatal =>
    rw [hr] at hmem
    simp [startEvents] at hmem
    obtain ⟨rfl, rfl⟩ := hmem
    exact ⟨rfl, hr⟩

/-! ## Claim theorems: first batch -/

/-- Claim C7: an empty account set makes the fleet run fail with the fatal
no-accounts error, with no event — no account started, no channel joined,
no quarantine or conversion performed. -/
theorem C7_no_accounts_aborts (nchan : Nat) :
    (mainRun [] nchan).2 = Except.error "No apps!" ∧ (mainRun [] nchan).1 = [] :=
  ⟨rfl, rfl⟩

/-- Claim C1 (code bug): with `a.session` and its sibling `a.ini` both in
the active area, the quarantine-to-banned operation moves only the session
artifact; the sibling config is left in the active area, because the loop
guard re-tests the session path (already renamed away) instead of the
config path.  When the session artifact is already absent, the sibling
config artifacts are not even attempted, for the same reason.  The
operation does return without raising. -/
theorem C1_banned_quarantine_leaves_configs_behind :
    move_session_to_ban_dir ⟨true, ["app"]⟩ ⟨true, ["app", "sessions", "a.session"]⟩
        [⟨true, ["app", "sessions", "a.session"]⟩, ⟨true, ["app", "sessions", "a.ini"]⟩] =
      Except.ok [⟨true, ["app", "sessions", "banned_sessions", "a.session"]⟩,
        ⟨true, ["app", "sessions", "a.ini"]⟩] ∧
    (⟨true, ["app", "sessions", "a.ini"]⟩ : PyPath) ∈
      ([⟨true, ["app", "sessions", "banned_sessions", "a.session"]⟩,
        ⟨true, ["app", "sessions", "a.ini"]⟩] : List PyPath) ∧
    (⟨true, ["app", "sessions", "banned_sessions", "a.ini"]⟩ : PyPath) ∉
      ([⟨true, ["app", "sessions", "banned_sessions", "a.session"]⟩,
        ⟨true, ["app", "sessions", "a.ini"]⟩] : List PyPath) ∧
    move_session_to_ban_dir ⟨true, ["app"]⟩ ⟨true, ["app", "sessions", "a.session"]⟩
        [⟨true, ["app", "sessions", "a.ini"]⟩] =
      Except.ok [⟨true, ["app", "sessions", "a.ini"]⟩] :=
  ⟨rfl, by decide, by decide, rfl⟩

/-- Claim C3 (code bug): for a fleet started with a relative script path
(`BASE_DIR = Path('.')`), the session path bound to the account discovered
from config file `sessions/a.ini` is `sessions/sessions/a.session` — the
active-area root is joined twice — not `sessions/a.session` alongside the
config file as the spec states.  Only for an absolute invocation
(`BASE_DIR = /app`) does the bound path land alongside the config file. -/
theorem C3_session_path_not_alongside_config :
    session_file_path ⟨false, []⟩ ⟨false, ["sessions", "a.ini"]⟩ =
      ⟨false, ["sessions", "sessions", "a.session"]⟩ ∧
    session_file_path ⟨false, []⟩ ⟨false, ["sessions", "a.ini"]⟩ ≠
      ⟨false, ["sessions", "a.session"]⟩ ∧
    session_file_path ⟨true, ["app"]⟩ ⟨true, ["app", "sessions", "a.ini"]⟩ =
      ⟨true, ["app", "sessions", "a.session"]⟩ :=
  ⟨rfl, by decide, rfl⟩

/-- Claim C9: for a nonempty emoji pool, the reaction handler always
returns without raising — whether the send succeeds, the emoji is rejected
as an invalid reaction, the account turns out banned, or anything else
fails — leaves the emoji pool unchanged, issues exactly one send attempt
(no retry with a different emoji), and on a rejected reaction logs the
chosen emoji as invalid. -/
theorem C9_reaction_failures_contained (emojis : List String) (pick : Nat)
    (sendResult : Except SendErr Unit) (h : emojis ≠ []) :
    (send_reaction emojis pick sendResult).map ReactionTrace.emojisAfter =
      Except.ok emojis ∧
    (send_reaction emojis pick sendResult).map ReactionTrace.sendAttempts =
      Except.ok 1 ∧
    (sendResult = Except.error SendErr.reactionInvalid →
      (send_reaction emojis pick sendResult).map ReactionTrace.logs =
        Except.ok [emojis.getD (pick % emojis.length) "" ++ " - INVALID REACTION"]) := by
  unfold send_reaction
  rw [if_neg h]
  cases sendResult with
  | ok u => refine ⟨rfl, rfl, ?_⟩; intro hc; simp at hc
  | error e =>
    cases e with
    | reactionInvalid => exact ⟨rfl, rfl, fun _ => rfl⟩
    | userDeactivatedBan => refine ⟨rfl, rfl, ?_⟩; intro hc; simp at hc
    | other => refine ⟨rfl, rfl, ?_⟩; intro hc; simp at hc

/-- Witness for C9 at a concrete rejected reaction. -/
theorem C9_witness :
    (send_reaction ["x"] 0 (Except.error SendErr.reactionInvalid)).map
      ReactionTrace.emojisAfter = Except.ok ["x"] ∧
    (send_reaction ["x"] 0 (Except.error SendErr.reactionInvalid)).map
      ReactionTrace.sendAttempts = Except.ok 1 ∧
    (Except.error SendErr.reactionInvalid =
        (Except.error SendErr.reactionInvalid : Except SendErr Unit) →
      (send_reaction ["x"] 0 (Except.error SendErr.reactionInvalid)).map
        ReactionTrace.logs = Except.ok ["x - INVALID REACTION"]) :=
  C9_reaction_failures_contained ["x"] 0 (Except.error SendErr.reactionInvalid) (by decide)

/-- Claim C8: after a fatal fleet run the driver logs critically, sleeps
exactly the fixed `TRY_AGAIN_SLEEP` interval (every sleep in the whole
trace has that same length — no backoff growth), and invokes the next
fleet run; every run number is eventually invoked (no restart bound). -/
theorem C8_fatal_restart_fixed_delay (res : Nat → RunResult) (n N m secs : Nat)
    (hfatal : res n = RunResult.fatal) :
    startEvents n (res n) =
      [DEv.runInvoked n, DEv.logCritical n, DEv.slept n TRY_AGAIN_SLEEP] ∧
    DEv.runInvoked (n + 1) ∈ driverTrace res (n + 2) ∧
    (DEv.slept m secs ∈ driverTrace res N → secs = TRY_AGAIN_SLEEP) ∧
    DEv.runInvoked m ∈ driverTrace res (m + 1) := by
  refine ⟨by rw [hfatal]; rfl, runInvoked_mem_driverTrace res (n + 1) (n + 2) (by omega),
    fun h => (slept_mem_driverTrace_elim res N m secs h).1,
    runInvoked_mem_driverTrace res m (m + 1) (by omega)⟩

/-- Witness for C8 at a concrete always-fatal outcome sequence. -/
theorem C8_witness :
    startEvents 0 ((fun _ => RunResult.fatal) 0) =
      [DEv.runInvoked 0, DEv.logCritical 0, DEv.slept 0 TRY_AGAIN_SLEEP] ∧
    DEv.runInvoked 1 ∈ driverTrace (fun _ => RunResult.fatal) 2 ∧
    (DEv.slept 1 20 ∈ driverTrace (fun _ => RunResult.fatal) 2 → 20 = TRY_AGAIN_SLEEP) ∧
    DEv.runInvoked 1 ∈ driverTrace (fun _ => RunResult.fatal) 2 :=
  C8_fatal_restart_fixed_delay (fun _ => RunResult.fatal) 0 2 1 20 rfl

/-- Claim C10: a clean fleet run produces no critical log and no sleep —
the fixed restart delay is applied only on the exception path — and the
next fleet run is still invoked immediately afterwards. -/
theorem C10_clean_shutdown_no_pause (res : Nat → RunResult) (n N secs : Nat)
    (hclean : res n = RunResult.clean) :
    startEvents n (res n) = [DEv.runInvoked n] ∧
    DEv.slept n secs ∉ driverTrace res N ∧
    DEv.runInvoked (n + 1) ∈ driverTrace res (n + 2) := by
  refine ⟨by rw [hclean]; rfl, ?_, runInvoked_mem_driverTrace res (n + 1) (n + 2) (by omega)⟩
  intro h
  have hf := (slept_mem_driverTrace_elim res N n secs h).2
  rw [hclean] at hf
  cases hf

/-- Witness for C10 at a concrete always-clean outcome sequence. -/
theorem C10_witness :
    startEvents 0 ((fun _ => RunResult.clean) 0) = [DEv.runInvoked 0] ∧
    DEv.slept 0 20 ∉ driverTrace (fun _ => RunResult.clean) 3 ∧
    DEv.runInvoked 1 ∈ driverTrace (fun _ => RunResult.clean) 2 :=
  C10_clean_shutdown_no_pause (fun _ => RunResult.clean) 0 3 20 rfl

/-! ## Normalisation helper lemmas (for C5) -/

theorem lookupKey_dictInsert_self (l : List (String × String)) (k v : String) :
    lookupKey (dictInsert l k v) k = some v := by
  induction l with
  | nil => simp [dictInsert, lookupKey]
  | cons p ps ih =>
    by_cases h : p.1 = k
    · simp [dictInsert, h, lookupKey]
    · simp [dictInsert, h, lookupKey, ih]

theorem lookupKey_dictInsert_ne (l : List (String × String)) (k k2 v : String)
    (h : k2 ≠ k) : lookupKey (dictInsert l k2 v) k = lookupKey l k := by
  induction l with
  | nil => simp [dictInsert, lookupKey, h]
  | cons p ps ih =>
    by_cases hp : p.1 = k2
    · simp [dictInsert, hp, lookupKey, h]
    · simp [dictInsert, hp, lookupKey]
      by_cases hk : p.1 = k
      · simp [hk]
      · simp [hk, ih]

theorem lookupKey_foldl_preserve (config : String → Option String)
    (tl : List (String × List String)) (acc : List (String × String)) (k : String)
    (h : k ∉ tl.map Prod.fst) :
    lookupKey (tl.foldl (normStep config) acc) k = lookupKey acc k := by
  induction tl generalizing acc with
  | nil => rfl
  | cons kv tl ih =>
    simp only [List.map_cons, List.mem_cons, not_or] at h
    rw [List.foldl_cons, ih (normStep config acc kv) h.2]
    unfold normStep
    cases firstTruthy config kv.2 with
    | none => rfl
    | some s => exact lookupKey_dictInsert_ne acc k kv.1 s (fun he => h.1 he.symm)

theorem lookupKey_foldl_main (config : String → Option String)
    (table : List (String × List String)) (acc : List (String × String))
    (k : String) (vs : List String)
    (hnd : (table.map Prod.fst).Nodup) (hmem : (k, vs) ∈ table)
    (hacc : lookupKey acc k = none) :
    lookupKey (table.foldl (normStep config) acc) k = firstTruthy config vs := by
  induction table generalizing acc with
  | nil => cases hmem
  | cons kv tl ih =>
    simp only [List.map_cons, List.nodup_cons] at hnd
    rw [List.foldl_cons]
    rcases List.mem_cons.mp hmem with heq | htl
    · have hk1 : kv.1 = k := by rw [← heq]
      have hk2 : kv.2 = vs := by rw [← heq]
      have hknot : k ∉ tl.map Prod.fst := by rw [← hk1]; exact hnd.1
      rw [lookupKey_foldl_preserve config tl (normStep config acc kv) k hknot]
      unfold normStep
      rw [hk2]
      cases hf : firstTruthy config vs with
      | none => exact hacc
      | some s => rw [hk1]; exact lookupKey_dictInsert_self acc k s
    · have hkmem : k ∈ tl.map Prod.fst := List.mem_map.mpr ⟨(k, vs), htl, rfl⟩
      have hne : kv.1 ≠ k := fun he => hnd.1 (he ▸ hkmem)
      refine ih (normStep config acc kv) hnd.2 htl ?_
      unfold normStep
      cases firstTruthy config kv.2 with
      | none => exact hacc
      | some s => rw [lookupKey_dictInsert_ne acc k kv.1 s hne]; exact hacc

/-- Claim C5: alias normalisation probes each canonical field's alias names
in the table's declared order, skipping absent or empty values; the first
non-empty match is bound to the canonical field; a field with no match is
omitted from the record; and when two aliases are both present and
non-empty the earlier one wins. -/
theorem C5_alias_resolution (table : List (String × List String))
    (config : String → Option String) (stem k v1 : String)
    (vs rest : List String)
    (hmem : (k, vs) ∈ table) (hnd : (table.map Prod.fst).Nodup)
    (hk : k ≠ "name") :
    lookupKey (normalize_config table config stem) k = firstTruthy config vs ∧
    (firstTruthy config vs = none →
      lookupKey (normalize_config table config stem) k = none) ∧
    (truthy (config v1) = true → firstTruthy config (v1 :: rest) = config v1) := by
  have hacc : lookupKey [("name", stem)] k = none := by
    simp [lookupKey, Ne.symm hk]
  have hmain : lookupKey (normalize_config table config stem) k = firstTruthy config vs :=
    lookupKey_foldl_main config table [("name", stem)] k vs hnd hmem hacc
  refine ⟨hmain, fun hnone => by rw [hmain, hnone], fun ht => ?_⟩
  unfold firstTruthy
  rw [if_pos ht]

/-- Witness for C5: `app_id` exposed as `7` under the lower-priority alias
`api_id`, while the higher-priority alias `app_id` is present but empty
in a second record probe. -/
theorem C5_witness :
    lookupKey (normalize_config [("app_id", ["app_id", "api_id"])]
        (fun s => if s = "api_id" then some "7" else none) "a") "app_id" =
      firstTruthy (fun s => if s = "api_id" then some "7" else none)
        ["app_id", "api_id"] ∧
    (firstTruthy (fun s => if s = "api_id" then some "7" else none)
        ["app_id", "api_id"] = none →
      lookupKey (normalize_config [("app_id", ["app_id", "api_id"])]
        (fun s => if s = "api_id" then some "7" else none) "a") "app_id" = none) ∧
    (truthy ((fun s => if s = "api_id" then some "7" else none) "api_id") = true →
      firstTruthy (fun s => if s = "api_id" then some "7" else none)
        ["api_id", "app_id"] =
        (fun s => if s = "api_id" then some "7" else none) "api_id") :=
  C5_alias_resolution [("app_id", ["app_id", "api_id"])]
    (fun s => if s = "api_id" then some "7" else none) "a" "app_id" "api_id"
    ["app_id", "api_id"] ["app_id"] (by decide) (by decide) (by decide)

/-! ## `create_apps` helper lemma (for C6) -/

theorem create_apps_append (base : PyPath)
    (outcome : PyPath → Option (List (String × String))) (l1 l2 : List PyPath) :
    create_apps base outcome (l1 ++ l2) =
      create_apps base outcome l1 ++ create_apps base outcome l2 := by
  induction l1 with
  | nil => rfl
  | cons p ps ih =>
    simp only [List.cons_append, create_apps]
    cases outcome p with
    | some cfg => simp [ih]
    | none => exact ih

theorem create_apps_mem (base : PyPath)
    (outcome : PyPath → Option (List (String × String))) (paths : List PyPath)
    (p : PyPath) (cfg : List (String × String))
    (hp : p ∈ paths) (hcfg : outcome p = some cfg) :
    (cfg, session_file_path base p) ∈ create_apps base outcome paths := by
  induction paths with
  | nil => cases hp
  | cons q qs ih =>
    rcases List.mem_cons.mp hp with rfl | hqs
    · simp [create_apps, hcfg]
    · unfold create_apps
      cases outcome q with
      | some c => exact List.mem_cons_of_mem _ (ih hqs)
      | none => exact ih hqs

/-- Claim C6: a failure while loading or constructing a client from one
config file is skipped without affecting the rest of discovery — the
result over `pre ++ [bad] ++ post` is exactly the concatenation of the
results over `pre` and over `post`, and every successfully loaded file
still yields its record paired with its bound session path. -/
theorem C6_bad_config_isolated (base : PyPath)
    (outcome : PyPath → Option (List (String × String)))
    (pre post : List PyPath) (bad p : PyPath) (cfg : List (String × String))
    (hbad : outcome bad = none) (hp : p ∈ pre ++ post) (hcfg : outcome p = some cfg) :
    create_apps base outcome (pre ++ bad :: post) =
      create_apps base outcome pre ++ create_apps base outcome post ∧
    (cfg, session_file_path base p) ∈ create_apps base outcome (pre ++ bad :: post) := by
  have hsplit : create_apps base outcome (pre ++ bad :: post) =
      create_apps base outcome pre ++ create_apps base outcome post := by
    rw [create_apps_append]
    have hmid : create_apps base outcome (bad :: post) = create_apps base outcome post := by
      simp only [create_apps, hbad]
    rw [hmid]
  refine ⟨hsplit, ?_⟩
  rw [hsplit, ← create_apps_append]
  exact create_apps_mem base outcome (pre ++ post) p cfg hp hcfg

/-- Witness for C6: a bad `b.ini` between two good configs skips only
itself; the good `c.json` after it still yields its record. -/
theorem C6_witness :
    create_apps ⟨true, ["app"]⟩
        (fun q => if q = ⟨true, ["app", "sessions", "b.ini"]⟩ then none
                  else some [("name", pstem q)])
        ([⟨true, ["app", "sessions", "a.json"]⟩] ++
          ⟨true, ["app", "sessions", "b.ini"]⟩ :: [⟨true, ["app", "sessions", "c.json"]⟩]) =
      create_apps ⟨true, ["app"]⟩
        (fun q => if q = ⟨true, ["app", "sessions", "b.ini"]⟩ then none
                  else some [("name", pstem q)])
        [⟨true, ["app", "sessions", "a.json"]⟩] ++
      create_apps ⟨true, ["app"]⟩
        (fun q => if q = ⟨true, ["app", "sessions", "b.ini"]⟩ then none
                  else some [("name", pstem q)])
        [⟨true, ["app", "sessions", "c.json"]⟩] ∧
    ([("name", pstem (⟨true, ["app", "sessions", "c.json"]⟩ : PyPath))],
      session_file_path ⟨true, ["app"]⟩ ⟨true, ["app", "sessions", "c.json"]⟩) ∈
      create_apps ⟨true, ["app"]⟩
        (fun q => if q = ⟨true, ["app", "sessions", "b.ini"]⟩ then none
                  else some [("name", pstem q)])
        ([⟨true, ["app", "sessions", "a.json"]⟩] ++
          ⟨true, ["app", "sessions", "b.ini"]⟩ :: [⟨true, ["app", "sessions", "c.json"]⟩]) :=
  C6_bad_config_isolated ⟨true, ["app"]⟩
    (fun q => if q = ⟨true, ["app", "sessions", "b.ini"]⟩ then none
              else some [("name", pstem q)])
    [⟨true, ["app", "sessions", "a.json"]⟩] [⟨true, ["app", "sessions", "c.json"]⟩]
    ⟨true, ["app", "sessions", "b.ini"]⟩ ⟨true, ["app", "sessions", "c.json"]⟩
    [("name", pstem (⟨true, ["app", "sessions", "c.json"]⟩ : PyPath))]
    (by decide) (by decide) (by decide)

/-! ## Orchestration helper lemmas (for C2 and C4) -/

theorem runAccount_snd_false (i : Nat) (a : AccountSpec) (n : Nat)
    (h : a.joinFailAt = none) : (runAccount i a n).2 = false := by
  cases hs : a.startRes <;> simp [runAccount, hs, joinEvents, h]

theorem appsLoop_snd_false : ∀ (apps : List AccountSpec) (j n : Nat),
    (∀ a ∈ apps, a.joinFailAt = none) → (appsLoop j apps n).2 = false := by
  intro apps
  induction apps with
  | nil => intro j n _; rfl
  | cons a rest ih =>
    intro j n h
    have ha := runAccount_snd_false j a n (h a (List.mem_cons_self a rest))
    simp only [appsLoop, ha, Bool.false_eq_true, if_false]
    exact ih (j + 1) n (fun b hb => h b (List.mem_cons_of_mem a hb))

theorem appsLoop_cons_eq (j : Nat) (a : AccountSpec) (rest : List AccountSpec) (n : Nat)
    (h : (runAccount j a n).2 = false) :
    appsLoop j (a :: rest) n =
      ((runAccount j a n).1 ++ (appsLoop (j + 1) rest n).1, (appsLoop (j + 1) rest n).2) := by
  simp [appsLoop, h]

theorem appsLoop_mem : ∀ (apps : List AccountSpec) (j t n : Nat) (e : Ev),
    t < apps.length → (∀ a ∈ apps, a.joinFailAt = none) →
    e ∈ (runAccount (j + t) (apps.getD t dAcc) n).1 →
    e ∈ (appsLoop j apps n).1 := by
  intro apps
  induction apps with
  | nil => intro j t n e ht _ _; exact absurd ht (by simp)
  | cons a rest ih =>
    intro j t n e ht hjoin he
    have ha := runAccount_snd_false j a n (hjoin a (List.mem_cons_self a rest))
    rw [appsLoop_cons_eq j a rest n ha]
    cases t with
    | zero =>
      simp only [List.getD_cons_zero, Nat.add_zero] at he
      exact List.mem_append_left _ he
    | succ t2 =>
      simp only [List.getD_cons_succ] at he
      refine List.mem_append_right _ ?_
      have harith : j + (t2 + 1) = (j + 1) + t2 := by omega
      rw [harith] at he
      have ht2 : t2 < rest.length := by simp at ht; omega
      exact ih (j + 1) t2 n e ht2 (fun b hb => hjoin b (List.mem_cons_of_mem a hb)) he

theorem appsLoop_mem_elim : ∀ (apps : List AccountSpec) (j n : Nat) (e : Ev),
    e ∈ (appsLoop j apps n).1 →
    ∃ t, t < apps.length ∧ e ∈ (runAccount (j + t) (apps.getD t dAcc) n).1 := by
  intro apps
  induction apps with
  | nil => intro j n e he; exact absurd he (List.not_mem_nil e)
  | cons a rest ih =>
    intro j n e he
    cases hr : (runAccount j a n).2 with
    | false =>
      rw [appsLoop_cons_eq j a rest n hr] at he
      rcases List.mem_append.mp he with h1 | h2
      · exact ⟨0, by simp, by simpa [Nat.add_zero] using h1⟩
      · obtain ⟨t, ht, hm⟩ := ih (j + 1) n e h2
        refine ⟨t + 1, by simp; omega, ?_⟩
        have harith : j + (t + 1) = (j + 1) + t := by omega
        rw [List.getD_cons_succ, harith]
        exact hm
    | true =>
      simp [appsLoop, hr] at he
      exact ⟨0, by simp, by simpa [Nat.add_zero] using he⟩

theorem joinEvents_fst_eq_map (j n : Nat) (fa : Option Nat) :
    ∃ l : List Nat, (joinEvents j n fa).1 = l.map (Ev.joined j) := by
  cases fa with
  | none => exact ⟨List.range n, rfl⟩
  | some k =>
    by_cases hk : k < n
    · exact ⟨List.range k, by simp [joinEvents, hk]⟩
    · exact ⟨List.range n, by simp [joinEvents, hk]⟩

theorem ev_not_mem_joined_map (e : Ev) (j : Nat) (l : List Nat)
    (h : ∀ c, e ≠ Ev.joined j c) : e ∉ l.map (Ev.joined j) := by
  intro hm
  obtain ⟨c, _, hc⟩ := List.mem_map.mp hm
  exact h c hc.symm

theorem handlerAdded_mem_runAccount (i : Nat) (a : AccountSpec) (n : Nat) :
    Ev.handlerAdded i ∈ (runAccount i a n).1 := by
  cases hs : a.startRes <;> simp [runAccount, hs]

theorem joined_mem_runAccount (i c n : Nat) (a : AccountSpec)
    (h : a.startRes = StartOutcome.ok) (hf : a.joinFailAt = none) (hc : c < n) :
    Ev.joined i c ∈ (runAccount i a n).1 := by
  simp only [runAccount, h, joinEvents, hf]
  refine List.mem_append_right _ ?_
  exact List.mem_map.mpr ⟨c, List.mem_range.mpr hc, rfl⟩

theorem started_mem_runAccount_elim (i j : Nat) (a : AccountSpec) (n : Nat)
    (h : Ev.started i ∈ (runAccount j a n).1) :
    i = j ∧ a.startRes = StartOutcome.ok := by
  cases hs : a.startRes
  case ok =>
    simp only [runAccount, hs] at h
    rcases List.mem_append.mp h with h1 | h2
    · simp at h1; exact ⟨h1, rfl⟩
    · exfalso
      have hnot : ∀ l : List Nat, Ev.started i ∉ l.map (Ev.joined j) :=
        fun l => ev_not_mem_joined_map _ j l (fun c => by simp)
      obtain ⟨l, hl⟩ := joinEvents_fst_eq_map j n a.joinFailAt
      rw [hl] at h2
      exact hnot l h2
  case opErr =>
    exfalso
    simp only [runAccount, hs] at h
    rcases List.mem_append.mp h with h1 | h2
    · simp at h1
    · cases hc : a.convRes <;> rw [hc] at h2 <;> simp at h2
  case banned => simp [runAccount, hs] at h
  case otherErr => simp [runAccount, hs] at h

theorem convertAttempt_mem_runAccount (i : Nat) (a : AccountSpec) (n : Nat)
    (h : a.startRes = StartOutcome.opErr) :
    Ev.convertAttempt i ∈ (runAccount i a n).1 := by
  simp [runAccount, h]

theorem movedToUnnecessary_mem_runAccount (i : Nat) (a : AccountSpec) (n : Nat)
    (h : a.startRes = StartOutcome.opErr) (hc : a.convRes = ConvRes.opErr) :
    Ev.movedToUnnecessary i ∈ (runAccount i a n).1 := by
  simp [runAccount, h, hc]

/-! ## Event counting (for the no-retry part of C4) -/

def countEv (e : Ev) : List Ev → Nat
  | [] => 0
  | x :: xs => (if x = e then 1 else 0) + countEv e xs

theorem countEv_append (e : Ev) (l1 l2 : List Ev) :
    countEv e (l1 ++ l2) = countEv e l1 + countEv e l2 := by
  induction l1 with
  | nil => simp [countEv]
  | cons x xs ih => simp [countEv, ih, Nat.add_assoc]

theorem countEv_startAttempt_map_joined (i j : Nat) (l : List Nat) :
    countEv (Ev.startAttempt i) (l.map (Ev.joined j)) = 0 := by
  induction l with
  | nil => rfl
  | cons c cs ih => simp [countEv, ih]

theorem countEv_startAttempt_map_stopped (i : Nat) (l : List Nat) :
    countEv (Ev.startAttempt i) (l.map Ev.stopped) = 0 := by
  induction l with
  | nil => rfl
  | cons c cs ih => simp [countEv, ih]

theorem countEv_startAttempt_joinEvents (i j n : Nat) (fa : Option Nat) :
    countEv (Ev.startAttempt i) (joinEvents j n fa).1 = 0 := by
  obtain ⟨l, hl⟩ := joinEvents_fst_eq_map j n fa
  rw [hl]
  exact countEv_startAttempt_map_joined i j l

theorem countEv_startAttempt_runAccount (i j n : Nat) (a : AccountSpec) :
    countEv (Ev.startAttempt i) (runAccount j a n).1 = if j = i then 1 else 0 := by
  cases hs : a.startRes
  case ok =>
    simp [runAccount, hs, countEv_append, countEv, countEv_startAttempt_joinEvents]
  case opErr =>
    cases hc : a.convRes <;> simp [runAccount, hs, hc, countEv]
  case banned => simp [runAccount, hs, countEv]
  case otherErr => simp [runAccount, hs, countEv]

theorem countEv_startAttempt_appsLoop : ∀ (apps : List AccountSpec) (j n i : Nat),
    (∀ a ∈ apps, a.joinFailAt = none) →
    countEv (Ev.startAttempt i) (appsLoop j apps n).1 =
      if j ≤ i ∧ i < j + apps.length then 1 else 0 := by
  intro apps
  induction apps with
  | nil =>
    intro j n i _
    rw [if_neg (by simp)]
    rfl
  | cons a rest ih =>
    intro j n i h
    have ha := runAccount_snd_false j a n (h a (List.mem_cons_self a rest))
    rw [appsLoop_cons_eq j a rest n ha, countEv_append,
      countEv_startAttempt_runAccount i j n a,
      ih (j + 1) n i (fun b hb => h b (List.mem_cons_of_mem a hb))]
    simp only [List.length_cons]
    split_ifs <;> omega

theorem mainRun_eq_of_no_join_failure (apps : List AccountSpec) (nchan : Nat)
    (hne : apps ≠ []) (hjoin : ∀ a ∈ apps, a.joinFailAt = none) :
    mainRun apps nchan = ((appsLoop 0 apps nchan).1 ++ [Ev.idled] ++
      (List.range apps.length).map Ev.stopped, Except.ok ()) := by
  have hsnd := appsLoop_snd_false apps 0 nchan hjoin
  cases apps with
  | nil => exact absurd rfl hne
  | cons a rest => simp [mainRun, hsnd]

/-! ## Quarantine-move helper lemmas (for C4) -/

theorem mfu_mem_iff (base p q : PyPath) (fs : List PyPath)
    (h1 : q ≠ p) (h2 : q ≠ uTarget base p) :
    q ∈ move_file_to_unnecessary base p fs ↔ q ∈ fs := by
  unfold move_file_to_unnecessary
  split
  · simp [List.mem_cons, h2, List.mem_erase_of_ne h1]
  · exact Iff.rfl

theorem mfu_self_out (base p : PyPath) (fs : List PyPath)
    (hnd : fs.Nodup) (hne : p ≠ uTarget base p) :
    p ∉ move_file_to_unnecessary base p fs := by
  unfold move_file_to_unnecessary
  split
  · intro hmem
    rcases List.mem_cons.mp hmem with h | h
    · exact hne h
    · exact ((hnd.mem_erase_iff).mp h).1 rfl
  · next hnot => exact hnot

theorem mfu_target_in (base p : PyPath) (fs : List PyPath) (hp : p ∈ fs) :
    uTarget base p ∈ move_file_to_unnecessary base p fs := by
  unfold move_file_to_unnecessary
  rw [if_pos hp]
  exact List.mem_cons_self _ _

theorem mfu_not_mem (base p q : PyPath) (fs : List PyPath)
    (hq : q ∉ fs) (h2 : q ≠ uTarget base p) :
    q ∉ move_file_to_unnecessary base p fs := by
  unfold move_file_to_unnecessary
  split
  · intro hmem
    rcases List.mem_cons.mp hmem with h | h
    · exact h2 h
    · exact hq (List.mem_of_mem_erase h)
  · exact hq

theorem mfu_nodup (base p : PyPath) (fs : List PyPath)
    (hnd : fs.Nodup) (ht : uTarget base p ∉ fs) :
    (move_file_to_unnecessary base p fs).Nodup := by
  unfold move_file_to_unnecessary
  split
  · exact List.Nodup.cons (fun hmem => ht (List.mem_of_mem_erase hmem)) (hnd.erase p)
  · exact hnd

theorem try_convert_opErr_eq (base sp : PyPath) (fs : List PyPath) :
    try_convert base sp ConvRes.opErr fs =
      move_file_to_unnecessary base (pwithSuffix sp ".json")
        (move_file_to_unnecessary base (pwithSuffix sp ".ini")
          (move_file_to_unnecessary base sp fs)) := rfl

theorem try_convert_quarantines (base sp : PyPath) (fs : List PyPath)
    (hnd : fs.Nodup)
    (hdistinct : List.Nodup [sp, pwithSuffix sp ".ini", pwithSuffix sp ".json",
      uTarget base sp, uTarget base (pwithSuffix sp ".ini"),
      uTarget base (pwithSuffix sp ".json")])
    (hf1 : uTarget base sp ∉ fs)
    (hf2 : uTarget base (pwithSuffix sp ".ini") ∉ fs) :
    (sp ∈ fs → sp ∉ try_convert base sp ConvRes.opErr fs ∧
      uTarget base sp ∈ try_convert base sp ConvRes.opErr fs) ∧
    (pwithSuffix sp ".ini" ∈ fs →
      pwithSuffix sp ".ini" ∉ try_convert base sp ConvRes.opErr fs ∧
      uTarget base (pwithSuffix sp ".ini") ∈ try_convert base sp ConvRes.opErr fs) ∧
    (pwithSuffix sp ".json" ∈ fs →
      pwithSuffix sp ".json" ∉ try_convert base sp ConvRes.opErr fs ∧
      uTarget base (pwithSuffix sp ".json") ∈ try_convert base sp ConvRes.opErr fs) := by
  simp only [List.nodup_cons, List.mem_cons, List.mem_singleton, List.not_mem_nil,
    or_false, not_or, List.nodup_nil, and_true, not_false_eq_true] at hdistinct
  obtain ⟨⟨hab, hac, had, hae, haf⟩, ⟨hbc, hbd, hbe, hbf⟩, ⟨hcd, hce, hcf⟩,
    ⟨hde, hdf⟩, hef⟩ := hdistinct
  rw [try_convert_opErr_eq base sp fs]
  refine ⟨fun hsp => ?_, fun hini => ?_, fun hjson => ?_⟩
  · have h1 : sp ∉ move_file_to_unnecessary base sp fs := mfu_self_out base sp fs hnd had
    have h2 : sp ∉ move_file_to_unnecessary base (pwithSuffix sp ".ini")
        (move_file_to_unnecessary base sp fs) :=
      mfu_not_mem base (pwithSuffix sp ".ini") sp _ h1 hae
    have h3 := mfu_not_mem base (pwithSuffix sp ".json") sp _ h2 haf
    have t1 : uTarget base sp ∈ move_file_to_unnecessary base sp fs :=
      mfu_target_in base sp fs hsp
    have t2 : uTarget base sp ∈ move_file_to_unnecessary base (pwithSuffix sp ".ini")
        (move_file_to_unnecessary base sp fs) :=
      (mfu_mem_iff base (pwithSuffix sp ".ini") (uTarget base sp) _
        (Ne.symm hbd) hde).mpr t1
    have t3 := (mfu_mem_iff base (pwithSuffix sp ".json") (uTarget base sp) _
      (Ne.symm hcd) hdf).mpr t2
    exact ⟨h3, t3⟩
  · have i1 : pwithSuffix sp ".ini" ∈ move_file_to_unnecessary base sp fs :=
      (mfu_mem_iff base sp (pwithSuffix sp ".ini") fs (Ne.symm hab) hbd).mpr hini
    have nd1 : (move_file_to_unnecessary base sp fs).Nodup := mfu_nodup base sp fs hnd hf1
    have i2 : pwithSuffix sp ".ini" ∉ move_file_to_unnecessary base (pwithSuffix sp ".ini")
        (move_file_to_unnecessary base sp fs) :=
      mfu_self_out base (pwithSuffix sp ".ini") _ nd1 hbe
    have i3 := mfu_not_mem base (pwithSuffix sp ".json") (pwithSuffix sp ".ini") _ i2 hbf
    have u1 : uTarget base (pwithSuffix sp ".ini") ∈
        move_file_to_unnecessary base (pwithSuffix sp ".ini")
          (move_file_to_unnecessary base sp fs) :=
      mfu_target_in base (pwithSuffix sp ".ini") _ i1
    have u2 := (mfu_mem_iff base (pwithSuffix sp ".json")
      (uTarget base (pwithSuffix sp ".ini")) _ (Ne.symm hce) hef).mpr u1
    exact ⟨i3, u2⟩
  · have j1 : pwithSuffix sp ".json" ∈ move_file_to_unnecessary base sp fs :=
      (mfu_mem_iff base sp (pwithSuffix sp ".json") fs (Ne.symm hac) hcd).mpr hjson
    have nd1 : (move_file_to_unnecessary base sp fs).Nodup := mfu_nodup base sp fs hnd hf1
    have j2 : pwithSuffix sp ".json" ∈
        move_file_to_unnecessary base (pwithSuffix sp ".ini")
          (move_file_to_unnecessary base sp fs) :=
      (mfu_mem_iff base (pwithSuffix sp ".ini") (pwithSuffix sp ".json") _
        (Ne.symm hbc) hce).mpr j1
    have hf2b : uTarget base (pwithSuffix sp ".ini") ∉ move_file_to_unnecessary base sp fs :=
      mfu_not_mem base sp (uTarget base (pwithSuffix sp ".ini")) fs hf2 (Ne.symm hde)
    have nd2 : (move_file_to_unnecessary base (pwithSuffix sp ".ini")
        (move_file_to_unnecessary base sp fs)).Nodup :=
      mfu_nodup base (pwithSuffix sp ".ini") _ nd1 hf2b
    have j3 : pwithSuffix sp ".json" ∉
        move_file_to_unnecessary base (pwithSuffix sp ".json")
          (move_file_to_unnecessary base (pwithSuffix sp ".ini")
            (move_file_to_unnecessary base sp fs)) :=
      mfu_self_out base (pwithSuffix sp ".json") _ nd2 hcf
    have v1 := mfu_target_in base (pwithSuffix sp ".json") _ j2
    exact ⟨j3, v1⟩

/-! ## Claim theorems: C2 and C4 -/

/-- Counterexample for claim C2: two accounts, both of which start
successfully; the first account's single join-channel call raises.  The
claim says a join failure is caught at the account boundary and all other
accounts still reach their join phase; in fact the second account's
orchestration never even begins (its handler is never added, it is never
started, it never joins) and the whole fleet run aborts with the uncaught
error. -/
theorem C2_counterexample :
    Ev.handlerAdded 1 ∉ (mainRun [⟨StartOutcome.ok, ConvRes.ok, some 0⟩,
      ⟨StartOutcome.ok, ConvRes.ok, none⟩] 1).1 ∧
    Ev.started 1 ∉ (mainRun [⟨StartOutcome.ok, ConvRes.ok, some 0⟩,
      ⟨StartOutcome.ok, ConvRes.ok, none⟩] 1).1 ∧
    Ev.joined 1 0 ∉ (mainRun [⟨StartOutcome.ok, ConvRes.ok, some 0⟩,
      ⟨StartOutcome.ok, ConvRes.ok, none⟩] 1).1 ∧
    Ev.started 0 ∈ (mainRun [⟨StartOutcome.ok, ConvRes.ok, some 0⟩,
      ⟨StartOutcome.ok, ConvRes.ok, none⟩] 1).1 ∧
    (mainRun [⟨StartOutcome.ok, ConvRes.ok, some 0⟩,
      ⟨StartOutcome.ok, ConvRes.ok, none⟩] 1).2 =
      Except.error "uncaught error in account loop" :=
  ⟨by decide, by decide, by decide, by decide, rfl⟩

/-- Claim C2 as amended: errors raised by the start attempt itself
(corruption, ban, or any other exception) are caught at the account
boundary and no such error prevents any other account's orchestration —
provided no join call fails, every account has its handler added, every
successfully started account joins every channel, and the run completes
cleanly.  A join-channel failure, however, is NOT caught at the account
boundary: it propagates out of the per-account loop, aborts the fleet run,
and accounts later in iteration order never reach their join phase. -/
theorem C2_start_failures_isolated (apps : List AccountSpec) (nchan i c : Nat)
    (hi : i < apps.length) (hjoin : ∀ a ∈ apps, a.joinFailAt = none) :
    Ev.handlerAdded i ∈ (mainRun apps nchan).1 ∧
    ((apps.getD i dAcc).startRes = StartOutcome.ok → c < nchan →
      Ev.joined i c ∈ (mainRun apps nchan).1) ∧
    (mainRun apps nchan).2 = Except.ok () := by
  have hne : apps ≠ [] := by
    intro h
    rw [h] at hi
    simp at hi
  rw [mainRun_eq_of_no_join_failure apps nchan hne hjoin]
  have hgd : apps.getD i dAcc ∈ apps := by
    rw [List.getD_eq_getElem apps dAcc hi]
    exact List.getElem_mem hi
  refine ⟨?_, ?_, rfl⟩
  · refine List.mem_append_left _ (List.mem_append_left _ ?_)
    refine appsLoop_mem apps 0 i nchan _ hi hjoin ?_
    rw [Nat.zero_add]
    exact handlerAdded_mem_runAccount i _ nchan
  · intro hok hc
    refine List.mem_append_left _ (List.mem_append_left _ ?_)
    refine appsLoop_mem apps 0 i nchan _ hi hjoin ?_
    rw [Nat.zero_add]
    exact joined_mem_runAccount i c nchan _ hok (hjoin _ hgd) hc

/-- Witness for the amended C2: a fleet of four accounts — banned, healthy,
corrupted-with-failing-conversion, and other-failure — where the healthy
account (index 1) still has its handler added, joins channel 1 of 2, and
the run completes cleanly despite the three failing neighbours. -/
theorem C2_witness :
    Ev.handlerAdded 1 ∈ (mainRun [⟨StartOutcome.banned, ConvRes.ok, none⟩,
      ⟨StartOutcome.ok, ConvRes.ok, none⟩, ⟨StartOutcome.opErr, ConvRes.opErr, none⟩,
      ⟨StartOutcome.otherErr, ConvRes.ok, none⟩] 2).1 ∧
    ((([⟨StartOutcome.banned, ConvRes.ok, none⟩, ⟨StartOutcome.ok, ConvRes.ok, none⟩,
        ⟨StartOutcome.opErr, ConvRes.opErr, none⟩,
        ⟨StartOutcome.otherErr, ConvRes.ok, none⟩] : List AccountSpec).getD 1 dAcc).startRes
          = StartOutcome.ok → 1 < 2 →
      Ev.joined 1 1 ∈ (mainRun [⟨StartOutcome.banned, ConvRes.ok, none⟩,
        ⟨StartOutcome.ok, ConvRes.ok, none⟩, ⟨StartOutcome.opErr, ConvRes.opErr, none⟩,
        ⟨StartOutcome.otherErr, ConvRes.ok, none⟩] 2).1) ∧
    (mainRun [⟨StartOutcome.banned, ConvRes.ok, none⟩, ⟨StartOutcome.ok, ConvRes.ok, none⟩,
      ⟨StartOutcome.opErr, ConvRes.opErr, none⟩,
      ⟨StartOutcome.otherErr, ConvRes.ok, none⟩] 2).2 = Except.ok () :=
  C2_start_failures_isolated [⟨StartOutcome.banned, ConvRes.ok, none⟩,
    ⟨StartOutcome.ok, ConvRes.ok, none⟩, ⟨StartOutcome.opErr, ConvRes.opErr, none⟩,
    ⟨StartOutcome.otherErr, ConvRes.ok, none⟩] 2 1 1 (by decide) (by decide)

/-- Claim C4: when an account's start attempt fails with the
persisted-state corruption error, conversion is attempted; the account is
never started in the run and its start is attempted exactly once (no
retry); when conversion itself fails with its storage error, the account's
artifacts move: the session artifact and each sibling config artifact
(`.ini`, `.json`) present in the active area end up in the
unnecessary-quarantine area and leave the active area, while a successful
conversion moves nothing. -/
theorem C4_conversion_or_unnecessary_quarantine (apps : List AccountSpec)
    (nchan i : Nat) (base sp : PyPath) (fs : List PyPath)
    (hi : i < apps.length)
    (hop : (apps.getD i dAcc).startRes = StartOutcome.opErr)
    (hjoin : ∀ a ∈ apps, a.joinFailAt = none)
    (hnd : fs.Nodup)
    (hdistinct : List.Nodup [sp, pwithSuffix sp ".ini", pwithSuffix sp ".json",
      uTarget base sp, uTarget base (pwithSuffix sp ".ini"),
      uTarget base (pwithSuffix sp ".json")])
    (hf1 : uTarget base sp ∉ fs)
    (hf2 : uTarget base (pwithSuffix sp ".ini") ∉ fs) :
    Ev.convertAttempt i ∈ (mainRun apps nchan).1 ∧
    Ev.started i ∉ (mainRun apps nchan).1 ∧
    countEv (Ev.startAttempt i) (mainRun apps nchan).1 = 1 ∧
    ((apps.getD i dAcc).convRes = ConvRes.opErr →
      Ev.movedToUnnecessary i ∈ (mainRun apps nchan).1) ∧
    (sp ∈ fs → sp ∉ try_convert base sp ConvRes.opErr fs ∧
      uTarget base sp ∈ try_convert base sp ConvRes.opErr fs) ∧
    (pwithSuffix sp ".ini" ∈ fs →
      pwithSuffix sp ".ini" ∉ try_convert base sp ConvRes.opErr fs ∧
      uTarget base (pwithSuffix sp ".ini") ∈ try_convert base sp ConvRes.opErr fs) ∧
    (pwithSuffix sp ".json" ∈ fs →
      pwithSuffix sp ".json" ∉ try_convert base sp ConvRes.opErr fs ∧
      uTarget base (pwithSuffix sp ".json") ∈ try_convert base sp ConvRes.opErr fs) ∧
    try_convert base sp ConvRes.ok fs = fs := by
  have hne : apps ≠ [] := by
    intro h
    rw [h] at hi
    simp at hi
  have hq := try_convert_quarantines base sp fs hnd hdistinct hf1 hf2
  rw [mainRun_eq_of_no_join_failure apps nchan hne hjoin]
  refine ⟨?_, ?_, ?_, ?_, hq.1, hq.2.1, hq.2.2, rfl⟩
  · refine List.mem_append_left _ (List.mem_append_left _ ?_)
    refine appsLoop_mem apps 0 i nchan _ hi hjoin ?_
    rw [Nat.zero_add]
    exact convertAttempt_mem_runAccount i _ nchan hop
  · intro hmem
    rcases List.mem_append.mp hmem with h1 | h2
    · rcases List.mem_append.mp h1 with h3 | h4
      · obtain ⟨t, ht, hrt⟩ := appsLoop_mem_elim apps 0 nchan _ h3
        rw [Nat.zero_add] at hrt
        obtain ⟨hit, hok⟩ := started_mem_runAccount_elim i t _ nchan hrt
        rw [← hit] at hok
        rw [hok] at hop
        cases hop
      · simp at h4
    · obtain ⟨x, _, hx⟩ := List.mem_map.mp h2
      cases hx
  · rw [countEv_append, countEv_append,
      countEv_startAttempt_appsLoop apps 0 nchan i hjoin,
      countEv_startAttempt_map_stopped i]
    have h1 : countEv (Ev.startAttempt i) [Ev.idled] = 0 := by simp [countEv]
    rw [h1, if_pos ⟨Nat.zero_le i, by omega⟩]
  · intro hconv
    refine List.mem_append_left _ (List.mem_append_left _ ?_)
    refine appsLoop_mem apps 0 i nchan _ hi hjoin ?_
    rw [Nat.zero_add]
    exact movedToUnnecessary_mem_runAccount i _ nchan hop hconv

/-- Witness for C4: one corrupted account whose conversion also fails, with
`a.session` and `a.ini` present in the active area of `/app/sessions`. -/
theorem C4_witness :
    Ev.convertAttempt 0 ∈
      (mainRun [⟨StartOutcome.opErr, ConvRes.opErr, none⟩] 0).1 ∧
    Ev.started 0 ∉ (mainRun [⟨StartOutcome.opErr, ConvRes.opErr, none⟩] 0).1 ∧
    Ev.movedToUnnecessary 0 ∈
      (mainRun [⟨StartOutcome.opErr, ConvRes.opErr, none⟩] 0).1 ∧
    (⟨true, ["app", "sessions", "a.session"]⟩ : PyPath) ∉
      try_convert ⟨true, ["app"]⟩ ⟨true, ["app", "sessions", "a.session"]⟩
        ConvRes.opErr [⟨true, ["app", "sessions", "a.session"]⟩,
          ⟨true, ["app", "sessions", "a.ini"]⟩] ∧
    uTarget ⟨true, ["app"]⟩ ⟨true, ["app", "sessions", "a.session"]⟩ ∈
      try_convert ⟨true, ["app"]⟩ ⟨true, ["app", "sessions", "a.session"]⟩
        ConvRes.opErr [⟨true, ["app", "sessions", "a.session"]⟩,
          ⟨true, ["app", "sessions", "a.ini"]⟩] ∧
    uTarget ⟨true, ["app"]⟩
        (pwithSuffix ⟨true, ["app", "sessions", "a.session"]⟩ ".ini") ∈
      try_convert ⟨true, ["app"]⟩ ⟨true, ["app", "sessions", "a.session"]⟩
        ConvRes.opErr [⟨true, ["app", "sessions", "a.session"]⟩,
          ⟨true, ["app", "sessions", "a.ini"]⟩] := by
  have h := C4_conversion_or_unnecessary_quarantine
    [⟨StartOutcome.opErr, ConvRes.opErr, none⟩] 0 0 ⟨true, ["app"]⟩
    ⟨true, ["app", "sessions", "a.session"]⟩
    [⟨true, ["app", "sessions", "a.session"]⟩, ⟨true, ["app", "sessions", "a.ini"]⟩]
    (by decide) (by decide) (by decide) (by decide) (by decide) (by decide) (by decide)
  exact ⟨h.1, h.2.1, h.2.2.2.1 rfl, (h.2.2.2.2.1 (by decide)).1,
    (h.2.2.2.2.1 (by decide)).2, (h.2.2.2.2.2.1 (by decide)).2⟩

end ReactionBot
